import Mathlib

set_option maxHeartbeats 1000000
set_option maxRecDepth 100000

namespace Skipper

/-!  Shallow embedding of the skipper update-archive pipeline: the cpio-style
container decoder (cpio.rs), the CRC-32 checksum engine and table
(checksum.rs), the manifest model (manifest.rs, json.rs), the payload write
state machine (payload.rs) and the orchestrating deploy loop (archive.rs).
Bytes are modelled as Nat (values < 256 by construction of the operations),
machine integers as Nat with explicit bounds where they matter, the
sequential byte source as the list of bytes still to come, and the
destination filesystem as a map from path to file contents.  -/

/-- Errors of the pipeline, mirroring the `ArchiveError` enum of archive.rs.
String payloads carry the formatted reason text of the corresponding
`format!` calls. The extra constructor `Crash` models a Rust runtime abort
(unwrap on None, assertion failure, slice-index underflow); it corresponds
to no variant of the source enum and is produced only where the source
program would abort. -/
inductive ArchiveError where
  | IOError (context : String)
  | ParseError (reason : String)
  | FormatError (offset : Nat) (reason : String)
  | FileNotFoundError (reason : String)
  | FileBufferSizeError
  | ChecksumFormatError (reason : String)
  | ChecksumMissingError (filename : String)
  | ChecksumMismatchError (filename : String)
  | ManifestParseError (reason : String)
  | ManifestFormatError (reason : String)
  | Utf8Error
  | UnknownPayload (msg : String)
  | PayloadDeployError (reason : String)
  | Crash (msg : String)
deriving DecidableEq

/-- One bit step of the reflected CRC-32 (IEEE polynomial) computed by the
crc32fast crate used in checksum.rs. -/
def crcBitStep (c : Nat) : Nat :=
  if c % 2 = 1 then (c / 2) ^^^ 0xEDB88320 else c / 2

/-- One byte step of CRC-32: xor the byte into the low bits, then eight bit
steps. -/
def crcByteStep (c b : Nat) : Nat :=
  crcBitStep (crcBitStep (crcBitStep (crcBitStep (crcBitStep (crcBitStep
    (crcBitStep (crcBitStep (c ^^^ (b % 256)))))))))

/-- Running CRC-32 update. crc32fast keeps the externally visible checksum
value between update calls; an update re-inverts it, folds the bytes through
the bit-level computation and inverts again, so that composing updates over
chunks equals one update over the concatenation. -/
def crcUpdate (h : Nat) (bytes : List Nat) : Nat :=
  (bytes.foldl crcByteStep (h ^^^ 0xFFFFFFFF)) ^^^ 0xFFFFFFFF

/-- The `Checksum` struct of checksum.rs: either still accumulating (hasher
present) or finalized (final_value present). -/
structure Checksum where
  final_value : Option Nat
  hasher : Option Nat
deriving DecidableEq

/-- Model of Checksum::new_hashable: fresh crc32fast hasher, no final value. -/
def Checksum.new_hashable : Checksum :=
  { final_value := none, hasher := some 0 }

/-- Model of Checksum::update. Calling it without a live hasher is the source's
`self.hasher.as_mut().unwrap()` panic, modelled as Crash. -/
def Checksum.update (c : Checksum) (buf : List Nat) : Except ArchiveError Checksum :=
  match c.hasher with
  | none => .error (.Crash "called Option unwrap on a None value")
  | some h => .ok { final_value := c.final_value, hasher := some (crcUpdate h buf) }

/-- Model of Checksum::finalise: consume the hasher, producing the final value. -/
def Checksum.finalise (c : Checksum) : Except ArchiveError Checksum :=
  match c.hasher with
  | none => .error (.Crash "called Option unwrap on a None value")
  | some h => .ok { final_value := some h, hasher := none }

/-- The byte-counting reader wrapper `PosReader` of cpio.rs. The wrapped
sequential source is modelled by the list of bytes it still has to offer. -/
structure PosReader where
  count : Nat
  stream : List Nat
deriving DecidableEq

/-- A plain read on the position-counting reader: returns as many of the
requested bytes as the source holds and advances the running count. -/
def posRead (r : PosReader) (n : Nat) : List Nat × PosReader :=
  let k := min n r.stream.length
  (r.stream.take k, { count := r.count + k, stream := r.stream.drop k })

/-- Model of io::Read::read_exact on the position-counting reader: succeeds only when
the source still holds the requested number of bytes, otherwise fails with
an unexpected-eof io error. -/
def readExact (r : PosReader) (n : Nat) : Except ArchiveError (List Nat × PosReader) :=
  if n ≤ r.stream.length then
    .ok (r.stream.take n, { count := r.count + n, stream := r.stream.drop n })
  else .error (.IOError "failed to fill whole buffer")

/-- Value of a single ASCII hex digit, by character code. -/
def hexDigitVal (c : Nat) : Option Nat :=
  if 48 ≤ c ∧ c ≤ 57 then some (c - 48)
  else if 97 ≤ c ∧ c ≤ 102 then some (c - 87)
  else if 65 ≤ c ∧ c ≤ 70 then some (c - 55)
  else none

/-- Model of u32::from_str_radix with radix 16, on a list of character code points:
an optional leading plus sign, then at least one hex digit; a value
overflowing u32 is rejected, as is any non-digit. -/
def fromStrRadix16 (cs : List Nat) : Option Nat :=
  match cs with
  | [] => none
  | c :: rest =>
    let ds := if c = 43 then rest else cs
    if ds.isEmpty then none
    else ds.foldlM (fun acc d =>
      match hexDigitVal d with
      | none => none
      | some v => if acc * 16 + v < 4294967296 then some (acc * 16 + v) else none) 0

/-- Validating UTF-8 decoder, the semantics of str::from_utf8: bytes to code
points, rejecting overlong forms, surrogates and code points above
0x10FFFF. -/
def utf8Decode : List Nat → Option (List Nat)
  | [] => some []
  | b0 :: rest =>
    if b0 < 0x80 then
      (utf8Decode rest).map (fun cps => b0 :: cps)
    else if 0xC2 ≤ b0 ∧ b0 ≤ 0xDF then
      match rest with
      | b1 :: rest1 =>
        if 0x80 ≤ b1 ∧ b1 ≤ 0xBF then
          (utf8Decode rest1).map (fun cps => ((b0 - 0xC0) * 0x40 + (b1 - 0x80)) :: cps)
        else none
      | [] => none
    else if 0xE0 ≤ b0 ∧ b0 ≤ 0xEF then
      match rest with
      | b1 :: b2 :: rest2 =>
        if ((if b0 = 0xE0 then 0xA0 else 0x80) ≤ b1 ∧ b1 ≤ (if b0 = 0xED then 0x9F else 0xBF))
            ∧ (0x80 ≤ b2 ∧ b2 ≤ 0xBF) then
          (utf8Decode rest2).map
            (fun cps => ((b0 - 0xE0) * 0x1000 + (b1 - 0x80) * 0x40 + (b2 - 0x80)) :: cps)
        else none
      | _ => none
    else if 0xF0 ≤ b0 ∧ b0 ≤ 0xF4 then
      match rest with
      | b1 :: b2 :: b3 :: rest3 =>
        if ((if b0 = 0xF0 then 0x90 else 0x80) ≤ b1 ∧ b1 ≤ (if b0 = 0xF4 then 0x8F else 0xBF))
            ∧ (0x80 ≤ b2 ∧ b2 ≤ 0xBF) ∧ (0x80 ≤ b3 ∧ b3 ≤ 0xBF) then
          (utf8Decode rest3).map
            (fun cps => ((b0 - 0xF0) * 0x40000 + (b1 - 0x80) * 0x1000
              + (b2 - 0x80) * 0x40 + (b3 - 0x80)) :: cps)
        else none
      | _ => none
    else none

/-- The HEADER_SIZE constant of cpio.rs. -/
def headerSize : Nat := 110

/-- The MAGIC_NUMBER constant of cpio.rs: the bytes of the ASCII literal 070701. -/
def magicNumber : List Nat := [48, 55, 48, 55, 48, 49]

/-- The TRAILER constant of cpio.rs: the reserved end-of-archive entry name. -/
def trailerName : String := "TRAILER!!!"

/-- The `CpioFile` struct of cpio.rs. The shared `RefCell<PosReader>` the
struct borrows is passed around explicitly instead. -/
structure CpioFile where
  filename : String
  filesize : Nat
  remaining : Nat
  cksum : Checksum
deriving DecidableEq

/-- Model of io::Read::read for CpioFile (cpio.rs lines 40-55): clamp the request to
the bytes remaining in the contained file, read from the shared reader,
shrink `remaining` by what was actually read and feed exactly the returned
bytes to the running checksum. -/
def cpioFileRead (f : CpioFile) (r : PosReader) (n : Nat) :
    Except ArchiveError (List Nat × CpioFile × PosReader) :=
  let maxRead := min n f.remaining
  let res := posRead r maxRead
  match f.cksum.update res.1 with
  | .error e => .error e
  | .ok ck =>
    .ok (res.1, { f with remaining := f.remaining - res.1.length, cksum := ck }, res.2)

/-- Model of CpioFile::finalise: assert the entry is drained, finalize the running
checksum and compare it (by final value, the unwraps of the PartialEq impl)
with the expected one. -/
def cpioFinalise (f : CpioFile) (expected : Checksum) : Except ArchiveError CpioFile :=
  if f.remaining ≠ 0 then .error (.Crash "assertion failed: remaining == 0")
  else
    match f.cksum.finalise with
    | .error e => .error e
    | .ok ck =>
      match ck.final_value, expected.final_value with
      | some a, some b =>
        if a ≠ b then .error (.ChecksumMismatchError f.filename) else .ok { f with cksum := ck }
      | _, _ => .error (.Crash "called Option unwrap on a None value")

/-- Start of CpioReader::read_next_file (cpio.rs lines 99-104): when the
stream position is not zero, consume the alignment padding up to the next
4-byte boundary, computed from the running count modulo 4; at position 0 the
padding read is skipped entirely. -/
def consumeAlignPad (r : PosReader) : Except ArchiveError PosReader :=
  if 0 < r.count then
    match readExact r ((4 - r.count % 4) % 4) with
    | .error e => .error e
    | .ok res => .ok res.2
  else .ok r

/-- Tail of CpioReader::read_next_file, from the name-size guard on (cpio.rs
lines 142-182): reject a name size above the 256-byte buffer, read exactly
`namesize` name bytes, validate the first `namesize - 1` of them as UTF-8 to
form the logical filename (the final byte is dropped by the slice
`buf[..len-1]`, which underflows and aborts when namesize is 0), consume the
header alignment padding derived from HEADER_SIZE + namesize, and either
signal end of archive on the trailer name or hand out the new live entry. -/
def readNameAndFinish (filesize namesize : Nat) (r : PosReader) :
    Except ArchiveError (Option CpioFile × PosReader) :=
  if 256 < namesize then
    .error (.FormatError r.count ("unexpectedly long filename size: " ++ toString namesize))
  else
    match readExact r namesize with
    | .error e => .error e
    | .ok (nameBytes, r1) =>
      if namesize = 0 then .error (.Crash "attempt to subtract with overflow")
      else
        match utf8Decode (nameBytes.take (namesize - 1)) with
        | none => .error (.ParseError "invalid utf-8 sequence")
        | some cps =>
          let filename := String.mk (cps.map Char.ofNat)
          match readExact r1 ((4 - (headerSize + namesize) % 4) % 4) with
          | .error e => .error e
          | .ok (_, r2) =>
            if filename = trailerName then .ok (none, r2)
            else
              .ok (some { filename := filename, filesize := filesize,
                          remaining := filesize, cksum := Checksum.new_hashable }, r2)

/-- Helper of CpioReader::read_next_file (cpio.rs lines 83-92): read a
header field as 8 ASCII hex digits. -/
def readHexU32 (r : PosReader) : Except ArchiveError (Nat × PosReader) :=
  match readExact r 8 with
  | .error e => .error e
  | .ok (bytes, r1) =>
    match utf8Decode bytes with
    | none => .error (.ParseError "invalid utf-8 sequence")
    | some cps =>
      match fromStrRadix16 cps with
      | none => .error (.ParseError "invalid digit found in string")
      | some v => .ok (v, r1)

/-- Body of CpioReader::read_next_file after the alignment padding: the
6-byte magic literal, the thirteen hex header fields in their fixed order
(only file size, name size and the check field are used), the zero check
guard, then the name handling. -/
def readHeaderBody (r : PosReader) : Except ArchiveError (Option CpioFile × PosReader) := do
  let (magic, r) ← readExact r 6
  if magic ≠ magicNumber then
    throw (.FormatError r.count "magic number mismatch")
  let (_ino, r) ← readHexU32 r
  let (_mode, r) ← readHexU32 r
  let (_uid, r) ← readHexU32 r
  let (_gid, r) ← readHexU32 r
  let (_nlink, r) ← readHexU32 r
  let (_mtime, r) ← readHexU32 r
  let (filesize, r) ← readHexU32 r
  let (_devmajor, r) ← readHexU32 r
  let (_devminor, r) ← readHexU32 r
  let (_rdevmajor, r) ← readHexU32 r
  let (_rdevminor, r) ← readHexU32 r
  let (namesize, r) ← readHexU32 r
  let (check, r) ← readHexU32 r
  if check ≠ 0 then
    throw (.FormatError r.count "check field non-zero")
  readNameAndFinish filesize namesize r

/-- Model of CpioReader::read_next_file: consume the pending alignment padding, then
parse the next header; None signals the trailer entry. -/
def readNextFile (r : PosReader) : Except ArchiveError (Option CpioFile × PosReader) :=
  match consumeAlignPad r with
  | .error e => .error e
  | .ok r1 => readHeaderBody r1

/-- The destination filesystem: contents of the file at each path, none for
a path with no file. Destination writes are sequential appends through the
handle opened by File::create, so the contents list is the whole history of
the handle. -/
def FS : Type := String → Option (List Nat)

/-- The `Status` enum of payload.rs. -/
inductive Status where
  | Complete
  | Pending
deriving DecidableEq

/-- The `ImagePayload` struct of payload.rs; the open destination handle is
reduced to a marker, its contents living in the filesystem map. -/
structure ImagePayload where
  image_size : Nat
  remaining : Nat
  dest : String
  dest_file : Option Unit
deriving DecidableEq

/-- Model of ImagePayload::new. -/
def ImagePayload.new (image_size : Nat) (dest : String) : ImagePayload :=
  { image_size := image_size, remaining := image_size, dest := dest, dest_file := none }

/-- Model of Payload::write_begin for ImagePayload: create (truncating) the
destination file. The io failure path of File::create is outside the model,
which treats every destination path as writable. -/
def writeBegin (p : ImagePayload) (fs : FS) : ImagePayload × FS :=
  ({ p with dest_file := some () },
   fun k => if k = p.dest then some [] else fs k)

/-- Model of Payload::write_block for ImagePayload (payload.rs lines 56-87): a chunk
larger than the bytes still expected is a deploy overflow error before
anything is written; otherwise the chunk is appended to the destination,
`remaining` shrinks by the chunk length, and the status is Complete exactly
when it reaches 0. Calling it before write_begin is the source's unwrap
abort. -/
def writeBlock (p : ImagePayload) (buf : List Nat) (fs : FS) :
    Except ArchiveError Status × ImagePayload × FS :=
  if p.remaining < buf.length then
    (.error (.PayloadDeployError "payload write overflow"), p, fs)
  else
    match p.dest_file with
    | none => (.error (.Crash "called Option unwrap on a None value"), p, fs)
    | some _ =>
      let fs1 : FS := fun k => if k = p.dest then some (((fs p.dest).getD []) ++ buf) else fs k
      let p1 := { p with remaining := p.remaining - buf.length }
      if p.remaining - buf.length = 0 then (.ok .Complete, p1, fs1)
      else (.ok .Pending, p1, fs1)

/-- The read-then-write loop of deploy_payload (payload.rs lines 106-121),
with explicit recursion fuel (a model artifact: every theorem below runs
only finitely many iterations and supplies enough fuel, so the fuel-out
branch is never reached): read up to 2048 bytes from the entry, fail when
the read returns nothing while the write is still pending, otherwise hand
the chunk to write_block and stop once it reports Complete. -/
def deployPayloadLoop : Nat → CpioFile → PosReader → ImagePayload → FS →
    Except ArchiveError Unit × CpioFile × PosReader × ImagePayload × FS
  | 0, file, r, p, fs => (.error (.Crash "model: loop fuel exhausted"), file, r, p, fs)
  | fuel + 1, file, r, p, fs =>
    match cpioFileRead file r 2048 with
    | .error e => (.error e, file, r, p, fs)
    | .ok (bytes, file1, r1) =>
      if bytes.length = 0 then
        (.error (.PayloadDeployError "payload read completed before write finished"),
         file1, r1, p, fs)
      else
        match writeBlock p bytes fs with
        | (.error e, p1, fs1) => (.error e, file1, r1, p1, fs1)
        | (.ok st, p1, fs1) =>
          if st = .Complete then (.ok (), file1, r1, p1, fs1)
          else deployPayloadLoop fuel file1 r1 p1 fs1

/-- Model of deploy_payload of payload.rs: open the destination, then run the chunk
loop. -/
def deployPayload (fuel : Nat) (file : CpioFile) (r : PosReader) (p : ImagePayload) (fs : FS) :
    Except ArchiveError Unit × CpioFile × PosReader × ImagePayload × FS :=
  let pb := writeBegin p fs
  deployPayloadLoop fuel file r pb.1 pb.2

/-- The `PayloadType` enum of manifest.rs: only the literal image is a
variant, under the serde rename. -/
inductive PayloadType where
  | Image
deriving DecidableEq

/-- The `PayloadInfo` struct of manifest.rs. -/
structure PayloadInfo where
  payload_type : PayloadType
  filename : String
  dest : String
  not_used : Option String
deriving DecidableEq

/-- The `Manifest` struct of manifest.rs. -/
structure Manifest where
  payloads : List PayloadInfo
deriving DecidableEq

/-- Model of Archive::get_next_payload (archive.rs lines 88-125) with the manifest
descriptor cursor made explicit: pop the next descriptor — none left is the
missing-manifest-entry format error — require exact positional filename
agreement, then build the deployer for the descriptor kind. The reason
strings reproduce the source's format! texts, including its manfest typo. -/
def getNextPayload (iter : List PayloadInfo) (file : CpioFile) :
    Except ArchiveError (Option ImagePayload × List PayloadInfo) :=
  match iter with
  | [] =>
    .error (.ManifestFormatError
      ("file " ++ file.filename ++ " in archive is missing manfest entry"))
  | payloadInfo :: rest =>
    if payloadInfo.filename ≠ file.filename then
      .error (.ManifestFormatError
        ("file " ++ file.filename ++ " in archive doesn't match manifest entry filename "
          ++ payloadInfo.filename))
    else
      match payloadInfo.payload_type with
      | .Image => .ok (some (ImagePayload.new file.filesize payloadInfo.dest), rest)

/-- The lookup table of checksum.rs, a finite map from filename to parsed
checksum. -/
structure ChecksumLookup where
  cksums : String → Option Checksum

/-- Model of ChecksumLookup::get_checksum: a copy carrying the final value but no
hasher. -/
def ChecksumLookup.getChecksum (l : ChecksumLookup) (filename : String) : Option Checksum :=
  (l.cksums filename).map (fun c => { final_value := c.final_value, hasher := none })

/-- Model of Archive::deploy (archive.rs lines 127-146), fuel-recursive over the
entries (the fuel-out branch is a model artifact never reached by the
theorems below): pull the next entry — the trailer ends the run successfully
whatever is left of the manifest — bind it to the next descriptor, deploy
it, then check its checksum against the table before advancing. The
filesystem travels alongside the result so that the disk state at a failure
stays observable. -/
def deployLoop : Nat → PosReader → List PayloadInfo → ChecksumLookup → FS →
    Except ArchiveError Unit × FS
  | 0, _, _, _, fs => (.error (.Crash "model: loop fuel exhausted"), fs)
  | fuel + 1, r, iter, cks, fs =>
    match readNextFile r with
    | .error e => (.error e, fs)
    | .ok (none, _) => (.ok (), fs)
    | .ok (some file, r1) =>
      match getNextPayload iter file with
      | .error e => (.error e, fs)
      | .ok (none, _) => (.error (.UnknownPayload "got file but no payload!"), fs)
      | .ok (some p, iter1) =>
        match deployPayload fuel file r1 p fs with
        | (.error e, _, _, _, fs1) => (.error e, fs1)
        | (.ok (), file1, r2, _, fs1) =>
          match cks.getChecksum file1.filename with
          | none => (.error (.ChecksumMissingError file1.filename), fs1)
          | some expected =>
            match cpioFinalise file1 expected with
            | .error e => (.error e, fs1)
            | .ok _ => deployLoop fuel r2 iter1 cks fs1

/-- The `TextFile` struct of archive.rs; the content is the decoded text. -/
structure TextFile where
  filename : String
  content : List Char
deriving DecidableEq

/-- Model of read_text_file of archive.rs (lines 154-179): pull the next entry, fail
when none is left, reject an entry whose declared size exceeds the supplied
buffer, then obtain the content from a single read call on the entry and
validate it as UTF-8. -/
def readTextFile (r : PosReader) (bufLen : Nat) :
    Except ArchiveError (TextFile × CpioFile × PosReader) :=
  match readNextFile r with
  | .error e => .error e
  | .ok (none, _) => .error (.FileNotFoundError "expected next file but none found")
  | .ok (some file, r1) =>
    if bufLen < file.filesize then .error .FileBufferSizeError
    else
      match cpioFileRead file r1 bufLen with
      | .error e => .error e
      | .ok (bytes, file1, r2) =>
        match utf8Decode bytes with
        | none => .error .Utf8Error
        | some cps =>
          .ok ({ filename := file1.filename, content := cps.map Char.ofNat }, file1, r2)

/-- Model of read_and_parse_text_file of archive.rs (lines 181-203): read a text
entry through the fixed 4096-byte stack buffer, require the expected
well-known filename, then run the given parse function on the content. -/
def readAndParseTextFile {T : Type} (r : PosReader) (filenameExpected : String)
    (parseFunction : List Char → Except ArchiveError T) :
    Except ArchiveError (T × PosReader) :=
  match readTextFile r 4096 with
  | .error e => .error e
  | .ok (textFile, _, r1) =>
    if textFile.filename ≠ filenameExpected then
      .error (.FileNotFoundError
        ("expected file " ++ filenameExpected ++ ", got " ++ textFile.filename))
    else
      match parseFunction textFile.content with
      | .error e => .error e
      | .ok t => .ok (t, r1)

/-- Whitespace in the sense of Rust's char::is_whitespace, restricted to the
ASCII range (the Unicode space characters beyond ASCII play no role in the
claims and are left out of the model). -/
def isRustWhitespace (c : Char) : Bool :=
  c.toNat = 32 ∨ c.toNat = 9 ∨ c.toNat = 10 ∨ c.toNat = 11 ∨ c.toNat = 12 ∨ c.toNat = 13

/-- Trailing carriage-return strip applied by str::lines to every line that
was terminated by a newline. -/
def stripTrailingCR (l : List Char) : List Char :=
  if l.getLast? = some '\r' then l.dropLast else l

/-- Worker for rustLines, accumulating the current line in reverse. -/
def rustLinesGo : List Char → List Char → List (List Char)
  | [], acc => if acc.isEmpty then [] else [acc.reverse]
  | c :: rest, acc =>
    if c = '\n' then stripTrailingCR acc.reverse :: rustLinesGo rest []
    else rustLinesGo rest (c :: acc)

/-- Model of str::lines: split at newlines, strip a carriage return from the end of
each newline-terminated line, and drop a final empty segment. -/
def rustLines (cs : List Char) : List (List Char) :=
  rustLinesGo cs []

/-- Worker for splitWhitespace, accumulating the current token in
reverse. -/
def splitWsGo : List Char → List Char → List (List Char)
  | [], acc => if acc.isEmpty then [] else [acc.reverse]
  | c :: rest, acc =>
    if isRustWhitespace c then
      if acc.isEmpty then splitWsGo rest [] else acc.reverse :: splitWsGo rest []
    else splitWsGo rest (c :: acc)

/-- Model of str::split_whitespace: the maximal whitespace-free tokens of the line,
in order. -/
def splitWhitespace (cs : List Char) : List (List Char) :=
  splitWsGo cs []

/-- Model of Checksum::from_str (checksum.rs lines 30-38): parse the token as a hex
u32 and store it as an already-final value. -/
def Checksum.fromStr (s : List Char) : Except ArchiveError Checksum :=
  match fromStrRadix16 (s.map Char.toNat) with
  | none =>
    .error (.ChecksumFormatError ("failed to parse hex checksum from: " ++ String.mk s))
  | some v => .ok { final_value := some v, hasher := none }

/-- Model of HashMap::insert on the checksum map: the new binding replaces any
previous one for the same key. -/
def insertCk (m : String → Option Checksum) (k : String) (c : Checksum) :
    String → Option Checksum :=
  fun q => if q = k then some c else m q

/-- The line loop of ChecksumLookup::parse_checksum_file (checksum.rs lines
58-73): take the first two whitespace tokens of each line as filename and
checksum — a missing token is a format error citing the line, further
tokens are never looked at — parse the checksum and insert it. -/
def parseChecksumLinesInto (m : String → Option Checksum) :
    List (List Char) → Except ArchiveError (String → Option Checksum)
  | [] => .ok m
  | line :: rest =>
    match splitWhitespace line with
    | [] =>
      .error (.ChecksumFormatError
        ("failed to parse filename filename from line: " ++ String.mk line))
    | [_] =>
      .error (.ChecksumFormatError
        ("failed to parse filename checksum from line: " ++ String.mk line))
    | fname :: ck :: _ =>
      match Checksum.fromStr ck with
      | .error e => .error e
      | .ok c => parseChecksumLinesInto (insertCk m (String.mk fname) c) rest

/-- Model of ChecksumLookup::parse_checksum_file: run the line loop over str::lines
of the input, starting from the empty map. -/
def parseChecksumFile (buf : List Char) : Except ArchiveError ChecksumLookup :=
  match parseChecksumLinesInto (fun _ => none) (rustLines buf) with
  | .error e => .error e
  | .ok m => .ok { cksums := m }

/-- Reading of one checksum line that the parser accepts: at least two
whitespace tokens, the second a hex-parseable u32; the value it binds. -/
def lineParse (line : List Char) : Option (String × Checksum) :=
  match splitWhitespace line with
  | fname :: ck :: _ =>
    match Checksum.fromStr ck with
    | .ok c => some (String.mk fname, c)
    | .error _ => none
  | _ => none

/-- The error the parser raises on a line it rejects: the two token-split
failures cite the whole line, the hex failure cites the offending token. -/
def lineError (line : List Char) : ArchiveError :=
  match splitWhitespace line with
  | [] =>
    .ChecksumFormatError ("failed to parse filename filename from line: " ++ String.mk line)
  | [_] =>
    .ChecksumFormatError ("failed to parse filename checksum from line: " ++ String.mk line)
  | _ :: ck :: _ =>
    .ChecksumFormatError ("failed to parse hex checksum from: " ++ String.mk ck)

/-- Specification-side reading of the finished table: the binding of the
last line mentioning the key wins. -/
def lastWins : List (List Char) → String → Option Checksum
  | [], _ => none
  | line :: rest, k =>
    match lastWins rest k with
    | some c => some c
    | none =>
      match lineParse line with
      | some fc => if k = fc.1 then some fc.2 else none
      | none => none

/-- JSON values, the document model behind serde_json in manifest.rs and
json.rs. Strings are lists of characters; numbers are integers, which is all
the manifest grammar ever carries. -/
inductive Json where
  | null
  | boolean (b : Bool)
  | num (n : Int)
  | str (s : List Char)
  | arr (xs : List Json)
  | obj (fields : List (List Char × Json))

/-- First binding of a key in a JSON object, the lookup serde performs for a
derived struct field (the model keeps the first occurrence; duplicate keys
do not occur in the claims). -/
def jsonLookup (fields : List (List Char × Json)) (key : List Char) : Option Json :=
  match fields.find? (fun kv => kv.1 == key) with
  | some kv => some kv.2
  | none => none

/-- Deserialization of PayloadType, the serde derive of manifest.rs lines
12-16: the single variant is recognized only under its rename to the literal
image; any other string is an unknown-variant deserialization error, raised
while the manifest is being parsed. -/
def payloadTypeFromJson : Json → Except String PayloadType
  | .str s =>
    if s = "image".data then .ok PayloadType.Image
    else .error ("unknown variant " ++ String.mk s ++ ", expected image")
  | _ => .error "invalid type: expected a string for PayloadType"

/-- Deserialization of a JSON string into a Rust String field. -/
def strFromJson : Json → Except String (List Char)
  | .str s => .ok s
  | _ => .error "invalid type: expected a string"

/-- Deserialization of PayloadInfo, the serde derive of manifest.rs lines
18-28: required type (under its rename), filename and dest fields, and the
optional not_used field defaulting to None. The model resolves fields in
struct order rather than document order, which only permutes which of
several errors is reported. -/
def payloadInfoFromJson : Json → Except String PayloadInfo
  | .obj fields =>
    (match jsonLookup fields "type".data with
     | none => .error "missing field type"
     | some tj =>
       match payloadTypeFromJson tj with
       | .error e => .error e
       | .ok t =>
         match jsonLookup fields "filename".data with
         | none => .error "missing field filename"
         | some fj =>
           match strFromJson fj with
           | .error e => .error e
           | .ok f =>
             match jsonLookup fields "dest".data with
             | none => .error "missing field dest"
             | some dj =>
               match strFromJson dj with
               | .error e => .error e
               | .ok d =>
                 match jsonLookup fields "not_used".data with
                 | none =>
                   .ok { payload_type := t, filename := String.mk f,
                         dest := String.mk d, not_used := none }
                 | some .null =>
                   .ok { payload_type := t, filename := String.mk f,
                         dest := String.mk d, not_used := none }
                 | some nj =>
                   match strFromJson nj with
                   | .error e => .error e
                   | .ok nu =>
                     .ok { payload_type := t, filename := String.mk f,
                           dest := String.mk d, not_used := some (String.mk nu) })
  | _ => .error "invalid type: expected an object for PayloadInfo"

/-- Deserialization of the descriptor array. -/
def payloadListFromJson : List Json → Except String (List PayloadInfo)
  | [] => .ok []
  | j :: rest =>
    match payloadInfoFromJson j with
    | .error e => .error e
    | .ok info =>
      match payloadListFromJson rest with
      | .error e => .error e
      | .ok infos => .ok (info :: infos)

/-- Deserialization of Manifest, the serde derive of manifest.rs lines 7-10:
a single required payloads array. Together with payloadInfoFromJson this is
what serde_json::from_str performs inside parse_manifest once the comment
stripping of json.rs is done; a failure here surfaces as the archive's
ManifestParseError while the manifest entry is being parsed, before any
deployment begins. -/
def manifestFromJson : Json → Except String Manifest
  | .obj fields =>
    (match jsonLookup fields "payloads".data with
     | none => .error "missing field payloads"
     | some (.arr xs) =>
       match payloadListFromJson xs with
       | .error e => .error e
       | .ok infos => .ok { payloads := infos }
     | some _ => .error "invalid type: expected an array for payloads")
  | _ => .error "invalid type: expected an object for Manifest"

/-- A descriptor object as the manifest text carries it: a type string, a
source filename and a destination path. -/
def mkDescJson (t f d : List Char) : Json :=
  .obj [("type".data, .str t), ("filename".data, .str f), ("dest".data, .str d)]

/-- A manifest document with the given descriptor triples. -/
def mkManifestJson (ds : List (List Char × List Char × List Char)) : Json :=
  .obj [("payloads".data, .arr (ds.map (fun x => mkDescJson x.1 x.2.1 x.2.2)))]

/-- Whether manifest deserialization succeeds. -/
def manifestParseOk (j : Json) : Bool :=
  match manifestFromJson j with
  | .ok _ => true
  | .error _ => false

/-- The manifest document of the video scenario: a single descriptor whose
type field carries the unrecognized literal video. -/
def videoManifestJson : Json :=
  Json.obj [("payloads".data,
    Json.arr [Json.obj [("type".data, Json.str "video".data),
      ("filename".data, Json.str "a".data), ("dest".data, Json.str "b".data)]])]

/-- Whether parsing of a checksum table succeeds. -/
def parseSucceeds (buf : List Char) : Bool :=
  match parseChecksumFile buf with
  | .ok _ => true
  | .error _ => false

/-- The table binding delivered for a key, none when parsing fails. -/
def parsedChecksumOf (buf : List Char) (k : String) : Option Checksum :=
  match parseChecksumFile buf with
  | .ok l => l.cksums k
  | .error _ => none

/-- Concrete header bytes for the test vectors: the magic literal and the
thirteen hex fields, all zero apart from the given file-size and name-size
encodings. -/
def headerChars (filesizeHex namesizeHex : String) : List Nat :=
  ("070701" ++ "00000000" ++ "00000000" ++ "00000000" ++ "00000000" ++ "00000000"
    ++ "00000000" ++ filesizeHex ++ "00000000" ++ "00000000" ++ "00000000" ++ "00000000"
    ++ namesizeHex ++ "00000000").data.map Char.toNat

/-- A size-0 entry whose 4 name bytes are abc followed by 0xFF: the final
name byte is neither NUL nor valid UTF-8. -/
def streamNameNoNul : List Nat :=
  headerChars "00000000" "00000004" ++ [97, 98, 99, 255] ++ [0, 0]

/-- The trailer entry: 11 name bytes spelling the reserved sentinel plus its
NUL, then 3 bytes of header padding. -/
def streamTrailer : List Nat :=
  headerChars "00000000" "0000000B" ++ ("TRAILER!!!".data.map Char.toNat) ++ [0] ++ [0, 0, 0]

/-- A 1-byte entry named a. -/
def streamEntryA : List Nat :=
  headerChars "00000001" "00000002" ++ [97, 0]

/-- An entry named b declaring 5000 content bytes (more than the 4096-byte
text buffer), with only two data bytes behind it. -/
def streamBigText : List Nat :=
  headerChars "00001388" "00000002" ++ [98, 0] ++ [104, 105]

/-- The empty destination filesystem. -/
def emptyFS : FS := fun _ => none

/-- An empty checksum table. -/
def emptyCks : ChecksumLookup := { cksums := fun _ => none }

/-- A sample manifest descriptor. -/
def samplePayloadInfo : PayloadInfo :=
  { payload_type := .Image, filename := "x", dest := "y", not_used := none }

/-! Theorems. -/

/-- C1: a read on a live entry (one whose checksum hasher is still present)
returns at most min(requested, remaining) bytes, and they are exactly the
next bytes of the underlying stream; `remaining` shrinks by precisely the
number of bytes returned, and the running CRC-32 state is updated with
exactly the returned bytes. -/
theorem cpioFileRead_spec (f : CpioFile) (r : PosReader) (n h : Nat)
    (hh : f.cksum.hasher = some h) (bytes : List Nat) (f' : CpioFile) (r' : PosReader)
    (hread : cpioFileRead f r n = .ok (bytes, f', r')) :
    bytes.length ≤ min n f.remaining
    ∧ bytes = r.stream.take bytes.length
    ∧ r'.stream = r.stream.drop bytes.length
    ∧ r'.count = r.count + bytes.length
    ∧ f'.remaining + bytes.length = f.remaining
    ∧ f'.cksum = { final_value := f.cksum.final_value, hasher := some (crcUpdate h bytes) }
    ∧ f'.filename = f.filename ∧ f'.filesize = f.filesize := by
  simp only [cpioFileRead, posRead, Checksum.update, hh] at hread
  simp only [Except.ok.injEq, Prod.mk.injEq] at hread
  obtain ⟨hb, hf, hr⟩ := hread
  subst hb hf hr
  have hlen : (r.stream.take (min (min n f.remaining) r.stream.length)).length
      = min (min n f.remaining) r.stream.length := by
    rw [List.length_take]
    omega
  refine ⟨?_, ?_, ?_, ?_, ?_, rfl, rfl, rfl⟩
  · rw [hlen]; omega
  · rw [hlen]
  · show r.stream.drop (min (min n f.remaining) r.stream.length) = _
    rw [hlen]
  · show r.count + min (min n f.remaining) r.stream.length = _
    rw [hlen]
  · show f.remaining - (r.stream.take (min (min n f.remaining) r.stream.length)).length
        + (r.stream.take (min (min n f.remaining) r.stream.length)).length = f.remaining
    rw [hlen]
    omega

/-- Witness for C1 at a concrete live entry and stream. -/
theorem cpioFileRead_spec_witness :
    cpioFileRead ⟨"a", 4, 3, Checksum.new_hashable⟩ ⟨7, [10, 20, 30, 40]⟩ 2
      = .ok ([10, 20], ⟨"a", 4, 1, ⟨none, some (crcUpdate 0 [10, 20])⟩⟩, ⟨9, [30, 40]⟩)
    ∧ ([10, 20] : List Nat).length ≤ min 2 3 :=
  ⟨rfl,
   (cpioFileRead_spec ⟨"a", 4, 3, Checksum.new_hashable⟩ ⟨7, [10, 20, 30, 40]⟩ 2 0 rfl
      [10, 20] ⟨"a", 4, 1, ⟨none, some (crcUpdate 0 [10, 20])⟩⟩ ⟨9, [30, 40]⟩ rfl).1⟩

/-- C2: a write_block whose chunk exceeds the bytes still expected fails
with the payload overflow error and changes neither the deployer state nor
the destination contents; otherwise the chunk is appended to the
destination, remaining shrinks by the chunk length, and the status is
Complete exactly when remaining becomes 0. -/
theorem writeBlock_spec (p : ImagePayload) (buf : List Nat) (fs : FS) :
    (p.remaining < buf.length →
      writeBlock p buf fs = (.error (.PayloadDeployError "payload write overflow"), p, fs))
    ∧ (p.dest_file = some () → buf.length ≤ p.remaining →
      writeBlock p buf fs
        = (.ok (if p.remaining = buf.length then Status.Complete else Status.Pending),
           { p with remaining := p.remaining - buf.length },
           fun k => if k = p.dest then some ((fs p.dest).getD [] ++ buf) else fs k)) := by
  constructor
  · intro hlt
    simp [writeBlock, hlt]
  · intro hdf hle
    have hnlt : ¬ p.remaining < buf.length := by omega
    by_cases hc : p.remaining = buf.length
    · have hz : p.remaining - buf.length = 0 := by omega
      simp [writeBlock, hnlt, hdf, hz, hc]
    · have hz : ¬ p.remaining - buf.length = 0 := by omega
      simp [writeBlock, hnlt, hdf, hz, hc]

/-- Witness for C2: an oversized chunk is rejected without effect, a fitting
chunk lands in the destination and completes the deployment. -/
theorem writeBlock_spec_witness :
    writeBlock { image_size := 5, remaining := 2, dest := "d", dest_file := some () }
        [1, 2, 3] emptyFS
      = (.error (.PayloadDeployError "payload write overflow"),
         { image_size := 5, remaining := 2, dest := "d", dest_file := some () }, emptyFS)
    ∧ writeBlock { image_size := 5, remaining := 2, dest := "d", dest_file := some () }
        [9, 9] emptyFS
      = (.ok Status.Complete,
         { image_size := 5, remaining := 0, dest := "d", dest_file := some () },
         fun k => if k = "d" then some ((emptyFS "d").getD [] ++ [9, 9]) else emptyFS k) :=
  ⟨(writeBlock_spec { image_size := 5, remaining := 2, dest := "d", dest_file := some () }
      [1, 2, 3] emptyFS).1 (by decide),
   (writeBlock_spec { image_size := 5, remaining := 2, dest := "d", dest_file := some () }
      [9, 9] emptyFS).2 rfl (by decide)⟩

/-- C9: deploying an entry whose remaining byte count is 0 always fails with
the premature-read deploy error — the loop's first read returns no bytes
while the write is still pending — and write_block itself can never report
Complete from a remaining count of 0 on any chunk the loop would hand it (a
read that reaches write_block is nonempty). -/
theorem deployPayload_zero_size (fuel : Nat) (file : CpioFile) (r : PosReader)
    (p : ImagePayload) (fs : FS) (h : Nat) (h0 : file.remaining = 0)
    (hh : file.cksum.hasher = some h) :
    (deployPayload (fuel + 1) file r p fs).1
      = .error (.PayloadDeployError "payload read completed before write finished")
    ∧ ∀ (q : ImagePayload) (buf : List Nat) (fs1 : FS), q.remaining = 0 → buf ≠ [] →
      (writeBlock q buf fs1).1 = .error (.PayloadDeployError "payload write overflow") := by
  constructor
  · simp [deployPayload, deployPayloadLoop, cpioFileRead, posRead, Checksum.update, hh, h0]
  · intro q buf fs1 hq hbuf
    have hpos : 0 < buf.length := List.length_pos.mpr hbuf
    simp [writeBlock, hq, hpos]

/-- Witness for C9 at a concrete zero-sized entry. -/
theorem deployPayload_zero_size_witness :
    (deployPayload 1 ⟨"z", 0, 0, Checksum.new_hashable⟩ ⟨0, []⟩
        (ImagePayload.new 0 "d") emptyFS).1
      = .error (.PayloadDeployError "payload read completed before write finished")
    ∧ (writeBlock (ImagePayload.new 0 "q") [5] emptyFS).1
      = .error (.PayloadDeployError "payload write overflow") :=
  ⟨(deployPayload_zero_size 0 ⟨"z", 0, 0, Checksum.new_hashable⟩ ⟨0, []⟩
      (ImagePayload.new 0 "d") emptyFS 0 rfl rfl).1,
   (deployPayload_zero_size 0 ⟨"z", 0, 0, Checksum.new_hashable⟩ ⟨0, []⟩
      (ImagePayload.new 0 "d") emptyFS 0 rfl rfl).2 (ImagePayload.new 0 "q") [5] emptyFS rfl
      (by decide)⟩

/-- C5: whenever the decoder's pre-header alignment step succeeds, the byte
position immediately before the 6-byte magic literal is a multiple of 4; the
pad is computed from the running position modulo 4, is skipped entirely at
position 0, and header parsing continues from exactly the padded position. -/
theorem align_before_magic (r r' : PosReader) (hp : consumeAlignPad r = .ok r') :
    r'.count % 4 = 0
    ∧ (r.count = 0 → r' = r)
    ∧ (0 < r.count →
        r'.count = r.count + (4 - r.count % 4) % 4
        ∧ r'.stream = r.stream.drop ((4 - r.count % 4) % 4))
    ∧ readNextFile r = readHeaderBody r' := by
  have hrn : readNextFile r = readHeaderBody r' := by
    simp [readNextFile, hp]
  by_cases h0 : 0 < r.count
  · unfold consumeAlignPad readExact at hp
    by_cases hle : (4 - r.count % 4) % 4 ≤ r.stream.length
    · simp only [h0, if_true, hle, if_pos, Except.ok.injEq] at hp
      subst hp
      refine ⟨?_, fun hc => absurd hc (by omega), fun _ => ⟨rfl, rfl⟩, hrn⟩
      show (r.count + (4 - r.count % 4) % 4) % 4 = 0
      omega
    · simp [h0, hle] at hp
  · have hz : r.count = 0 := by omega
    rw [consumeAlignPad] at hp
    simp [hz] at hp
    subst hp
    exact ⟨by omega, fun _ => rfl, fun hc => absurd hc (by omega), hrn⟩

/-- Witness for C5 at a concrete misaligned position. -/
theorem align_before_magic_witness :
    (8 : Nat) % 4 = 0
    ∧ ((5 : Nat) = 0 → (⟨8, []⟩ : PosReader) = ⟨5, [9, 9, 9]⟩)
    ∧ ((0 : Nat) < 5 →
        (8 : Nat) = 5 + (4 - 5 % 4) % 4
        ∧ ([] : List Nat) = ([9, 9, 9] : List Nat).drop ((4 - 5 % 4) % 4))
    ∧ readNextFile ⟨5, [9, 9, 9]⟩ = readHeaderBody ⟨8, []⟩ :=
  align_before_magic ⟨5, [9, 9, 9]⟩ ⟨8, []⟩ rfl

/-- C3: in any state of the deploy loop, once the decoder yields a binary
entry, a missing manifest descriptor is a fatal missing-counterpart format
error and a filename differing from the next descriptor's is a fatal format
error naming both filenames; in both cases the loop stops with the
destination filesystem exactly as it was, so no byte has been written for
that descriptor — the matching is purely positional. -/
theorem deployLoop_positional (fuel : Nat) (r r' : PosReader) (file : CpioFile)
    (iter : List PayloadInfo) (cks : ChecksumLookup) (fs : FS)
    (hread : readNextFile r = .ok (some file, r')) :
    (iter = [] → deployLoop (fuel + 1) r iter cks fs
        = (.error (.ManifestFormatError
            ("file " ++ file.filename ++ " in archive is missing manfest entry")), fs))
    ∧ ∀ payloadInfo rest, iter = payloadInfo :: rest →
        payloadInfo.filename ≠ file.filename →
        deployLoop (fuel + 1) r iter cks fs
          = (.error (.ManifestFormatError
              ("file " ++ file.filename ++ " in archive doesn't match manifest entry filename "
                ++ payloadInfo.filename)), fs) := by
  constructor
  · rintro rfl
    simp [deployLoop, hread, getNextPayload]
  · rintro payloadInfo rest rfl hne
    simp [deployLoop, hread, getNextPayload, hne]

/-- Witness for C3 on a concrete 1-byte entry named a against an empty
descriptor list and against a descriptor for x. -/
theorem deployLoop_positional_witness :
    deployLoop 1 ⟨0, streamEntryA⟩ [] emptyCks emptyFS
      = (.error (.ManifestFormatError "file a in archive is missing manfest entry"), emptyFS)
    ∧ deployLoop 1 ⟨0, streamEntryA⟩ [samplePayloadInfo] emptyCks emptyFS
      = (.error (.ManifestFormatError
          "file a in archive doesn't match manifest entry filename x"), emptyFS) :=
  ⟨(deployLoop_positional 0 ⟨0, streamEntryA⟩ ⟨112, []⟩ ⟨"a", 1, 1, Checksum.new_hashable⟩
      [] emptyCks emptyFS rfl).1 rfl,
   (deployLoop_positional 0 ⟨0, streamEntryA⟩ ⟨112, []⟩ ⟨"a", 1, 1, Checksum.new_hashable⟩
      [samplePayloadInfo] emptyCks emptyFS rfl).2 samplePayloadInfo [] rfl (by decide)⟩

/-- C8: when the decoder reports the trailer while manifest descriptors
remain unconsumed, the deploy loop ends successfully: the leftovers are not
flagged and the filesystem is untouched. -/
theorem deployLoop_trailer (fuel : Nat) (r r' : PosReader) (iter : List PayloadInfo)
    (cks : ChecksumLookup) (fs : FS) (hread : readNextFile r = .ok (none, r'))
    (_hleft : 0 < iter.length) :
    deployLoop (fuel + 1) r iter cks fs = (.ok (), fs) := by
  simp [deployLoop, hread]

/-- Witness for C8: a trailer-only archive with one descriptor left over
deploys successfully. -/
theorem deployLoop_trailer_witness :
    deployLoop 1 ⟨0, streamTrailer⟩ [samplePayloadInfo] emptyCks emptyFS = (.ok (), emptyFS) :=
  deployLoop_trailer 0 ⟨0, streamTrailer⟩ ⟨124, []⟩ [samplePayloadInfo] emptyCks emptyFS
    rfl (by decide)

/-- C10: a header text entry declaring more than 4096 bytes makes
read_and_parse_text_file fail with the file-buffer-size error whatever parse
function it was given, so before any parsing; and the content of an accepted
text entry is exactly what a single read call on the entry returns. -/
theorem readTextFile_buffer (r r' : PosReader) (file : CpioFile)
    (hread : readNextFile r = .ok (some file, r')) :
    (4096 < file.filesize →
      ∀ (T : Type) (expected : String) (pf : List Char → Except ArchiveError T),
        readAndParseTextFile r expected pf = .error .FileBufferSizeError)
    ∧ ∀ bufLen h tf file1 r2, file.cksum.hasher = some h →
        readTextFile r bufLen = .ok (tf, file1, r2) →
        ∃ cps, utf8Decode (r'.stream.take (min bufLen file.remaining)) = some cps
          ∧ tf.content = cps.map Char.ofNat := by
  constructor
  · intro hbig T expected pf
    simp [readAndParseTextFile, readTextFile, hread, hbig]
  · intro bufLen h tf file1 r2 hh hok
    rw [readTextFile, hread] at hok
    by_cases hbig : bufLen < file.filesize
    · simp [hbig] at hok
    · simp only [hbig, if_false] at hok
      simp only [cpioFileRead, posRead, Checksum.update, hh] at hok
      have htake : r'.stream.take (min (min bufLen file.remaining) r'.stream.length)
          = r'.stream.take (min bufLen file.remaining) := by
        rw [List.take_eq_take]
        omega
      rw [htake] at hok
      cases hu : utf8Decode (r'.stream.take (min bufLen file.remaining)) with
      | none => rw [hu] at hok; cases hok
      | some cps =>
        rw [hu] at hok
        simp only [Except.ok.injEq, Prod.mk.injEq] at hok
        obtain ⟨htf, _, _⟩ := hok
        subst htf
        exact ⟨cps, rfl, rfl⟩

/-- Witness for C10: an entry declaring 5000 bytes is rejected by the
4096-byte buffer before the parse function can run. -/
theorem readTextFile_buffer_witness :
    readAndParseTextFile ⟨0, streamBigText⟩ "checksums"
        (fun _ => .ok (0 : Nat))
      = .error .FileBufferSizeError :=
  (readTextFile_buffer ⟨0, streamBigText⟩ ⟨112, [104, 105]⟩
      ⟨"b", 5000, 5000, Checksum.new_hashable⟩ rfl).1 (by decide) Nat "checksums"
    (fun _ => .ok 0)

/-- Counterexample for C6: a header whose 4 name bytes are abc followed by
0xFF — not NUL-terminated, and not valid UTF-8 as a whole — is accepted, the
final byte silently discarded: the decoder never checks the trailing byte. -/
theorem readName_counterexample :
    readNextFile ⟨0, streamNameNoNul⟩
      = .ok (some ⟨"abc", 0, 0, Checksum.new_hashable⟩, ⟨116, []⟩)
    ∧ ([97, 98, 99, 255] : List Nat).getLast? ≠ some 0
    ∧ utf8Decode [97, 98, 99, 255] = none :=
  ⟨rfl, by decide, rfl⟩

/-- C6 amended: a name size above the fixed 256-byte bound is a fatal format
error raised before any name byte is read; otherwise exactly `namesize` name
bytes are consumed, only the first namesize - 1 of them must be valid UTF-8
and they form the logical filename, while the final byte is discarded
without being checked (in particular it need not be NUL). -/
theorem readName_spec (filesize namesize : Nat) (r : PosReader) :
    (256 < namesize →
      readNameAndFinish filesize namesize r
        = .error (.FormatError r.count
            ("unexpectedly long filename size: " ++ toString namesize)))
    ∧ ∀ name rest cps, namesize = name.length → 0 < namesize → namesize ≤ 256 →
        r.stream = name ++ rest →
        utf8Decode (name.take (namesize - 1)) = some cps →
        (4 - (headerSize + namesize) % 4) % 4 ≤ rest.length →
        readNameAndFinish filesize namesize r
          = (if String.mk (cps.map Char.ofNat) = trailerName then
               .ok (none, ⟨r.count + namesize + (4 - (headerSize + namesize) % 4) % 4,
                 rest.drop ((4 - (headerSize + namesize) % 4) % 4)⟩)
             else
               .ok (some ⟨String.mk (cps.map Char.ofNat), filesize, filesize,
                   Checksum.new_hashable⟩,
                 ⟨r.count + namesize + (4 - (headerSize + namesize) % 4) % 4,
                  rest.drop ((4 - (headerSize + namesize) % 4) % 4)⟩)) := by
  constructor
  · intro hbig
    rw [readNameAndFinish, if_pos hbig]
  · intro name rest cps hlen h0 hle hstream hutf hpad
    subst hlen
    have hnbig : ¬ 256 < name.length := by omega
    have hsl : r.stream.length = name.length + rest.length := by
      rw [hstream, List.length_append]
    have hrex : readExact r name.length = .ok (name, ⟨r.count + name.length, rest⟩) := by
      rw [readExact, if_pos (by omega)]
      rw [hstream, List.take_left, List.drop_left]
    have h0' : ¬ name.length = 0 := by omega
    have hrex2 : readExact ⟨r.count + name.length, rest⟩
        ((4 - (headerSize + name.length) % 4) % 4)
        = .ok (rest.take ((4 - (headerSize + name.length) % 4) % 4),
            ⟨r.count + name.length + (4 - (headerSize + name.length) % 4) % 4,
             rest.drop ((4 - (headerSize + name.length) % 4) % 4)⟩) := by
      rw [readExact, if_pos hpad]
    rw [readNameAndFinish, if_neg hnbig, hrex]
    simp only [h0', if_false, hutf, hrex2]

/-- Witness for C6 at a concrete oversized name size and a concrete 3-byte
name whose final byte is an exclamation mark rather than NUL. -/
theorem readName_spec_witness :
    readNameAndFinish 0 300 ⟨110, [1, 2, 3]⟩
      = .error (.FormatError 110 ("unexpectedly long filename size: " ++ toString 300))
    ∧ readNameAndFinish 5 3 ⟨110, [104, 105, 33, 7, 7, 7]⟩
      = .ok (some ⟨"hi", 5, 5, Checksum.new_hashable⟩, ⟨116, []⟩) :=
  ⟨(readName_spec 0 300 ⟨110, [1, 2, 3]⟩).1 (by decide),
   (readName_spec 5 3 ⟨110, [104, 105, 33, 7, 7, 7]⟩).2 [104, 105, 33] [7, 7, 7] [104, 105]
     rfl (by decide) (by decide) rfl rfl (by decide)⟩

/-- Deserializing one canonical descriptor object: the type string decides
everything — image succeeds, anything else is the unknown-variant error. -/
theorem payloadInfoFromJson_mkDesc (t f d : List Char) :
    payloadInfoFromJson (mkDescJson t f d)
      = if t = "image".data then
          .ok ⟨PayloadType.Image, String.mk f, String.mk d, none⟩
        else .error ("unknown variant " ++ String.mk t ++ ", expected image") := by
  have h1 : payloadInfoFromJson (mkDescJson t f d)
      = (match payloadTypeFromJson (Json.str t) with
         | .error e => Except.error e
         | .ok ty =>
           Except.ok { payload_type := ty, filename := String.mk f, dest := String.mk d,
                       not_used := none }) := rfl
  rw [h1]
  by_cases ht : t = "image".data
  · have hp : payloadTypeFromJson (Json.str t) = .ok PayloadType.Image := by
      rw [payloadTypeFromJson, if_pos ht]
    rw [hp, if_pos ht]
  · have hp : payloadTypeFromJson (Json.str t)
        = .error ("unknown variant " ++ String.mk t ++ ", expected image") := by
      rw [payloadTypeFromJson, if_neg ht]
    rw [hp, if_neg ht]

/-- Deserializing a canonical descriptor list whose types are all image. -/
theorem payloadListFromJson_good (ds : List (List Char × List Char × List Char))
    (h : ∀ x ∈ ds, x.1 = "image".data) :
    payloadListFromJson (ds.map fun x => mkDescJson x.1 x.2.1 x.2.2)
      = .ok (ds.map fun x =>
          ⟨PayloadType.Image, String.mk x.2.1, String.mk x.2.2, none⟩) := by
  induction ds with
  | nil => rfl
  | cons x rest ih =>
    have hx : x.1 = "image".data := h x (by simp)
    simp only [List.map_cons, payloadListFromJson, payloadInfoFromJson_mkDesc, hx, if_pos]
    rw [ih (fun y hy => h y (by simp [hy]))]

/-- Deserializing a canonical descriptor list containing a type other than
image fails. -/
theorem payloadListFromJson_bad (ds : List (List Char × List Char × List Char))
    (h : ∃ x ∈ ds, x.1 ≠ "image".data) :
    ∃ e, payloadListFromJson (ds.map fun x => mkDescJson x.1 x.2.1 x.2.2) = .error e := by
  induction ds with
  | nil => exact absurd h (by simp)
  | cons x rest ih =>
    by_cases hx : x.1 = "image".data
    · have hrest : ∃ y ∈ rest, y.1 ≠ "image".data := by
        obtain ⟨y, hy, hyne⟩ := h
        rcases List.mem_cons.mp hy with rfl | hy2
        · exact absurd hx hyne
        · exact ⟨y, hy2, hyne⟩
      obtain ⟨e, he⟩ := ih hrest
      refine ⟨e, ?_⟩
      simp only [List.map_cons, payloadListFromJson, payloadInfoFromJson_mkDesc, hx, if_pos, he]
    · refine ⟨"unknown variant " ++ String.mk x.1 ++ ", expected image", ?_⟩
      simp only [List.map_cons, payloadListFromJson, payloadInfoFromJson_mkDesc, hx, if_false]

/-- Counterexample for C4: the video manifest does not parse — the
unknown-variant failure happens while the manifest itself is deserialized,
not later at dispatch. -/
theorem manifest_video_counterexample :
    manifestParseOk videoManifestJson = false
    ∧ manifestFromJson videoManifestJson = .error "unknown variant video, expected image" :=
  ⟨rfl, rfl⟩

/-- C4 amended: a manifest carrying any descriptor type other than the
literal image already fails at manifest-parse time (serde's unknown-variant
error inside parse_manifest); a manifest whose types are all image parses,
and dispatch can then never produce the loop's unknown-payload arm, because
get_next_payload always returns a constructed deployer when it succeeds. -/
theorem manifest_unknown_type_parse_time :
    (∀ ds : List (List Char × List Char × List Char),
        (∃ x ∈ ds, x.1 ≠ "image".data) →
        manifestParseOk (mkManifestJson ds) = false)
    ∧ (∀ ds : List (List Char × List Char × List Char),
        (∀ x ∈ ds, x.1 = "image".data) →
        manifestFromJson (mkManifestJson ds)
          = .ok { payloads := ds.map (fun x =>
              ⟨PayloadType.Image, String.mk x.2.1, String.mk x.2.2, none⟩) })
    ∧ ∀ (iter : List PayloadInfo) (file : CpioFile) res,
        getNextPayload iter file = .ok res → res.1.isSome = true := by
  have hstep : ∀ ds : List (List Char × List Char × List Char),
      manifestFromJson (mkManifestJson ds)
        = (match payloadListFromJson (ds.map fun x => mkDescJson x.1 x.2.1 x.2.2) with
           | .error e => Except.error e
           | .ok infos => Except.ok { payloads := infos }) := fun _ => rfl
  refine ⟨?_, ?_, ?_⟩
  · intro ds h
    obtain ⟨e, he⟩ := payloadListFromJson_bad ds h
    rw [manifestParseOk, hstep, he]
  · intro ds h
    rw [hstep, payloadListFromJson_good ds h]
  · intro iter file res h
    cases iter with
    | nil => exact absurd h (by simp [getNextPayload])
    | cons payloadInfo rest =>
      obtain ⟨pt, fn, dst, nu⟩ := payloadInfo
      cases pt
      by_cases hfn : fn ≠ file.filename
      · rw [getNextPayload, if_pos hfn] at h
        cases h
      · rw [getNextPayload, if_neg hfn] at h
        cases h
        rfl

/-- Witness for C4 at a one-descriptor video manifest and a one-descriptor
image manifest. -/
theorem manifest_unknown_type_witness :
    manifestParseOk (mkManifestJson [("video".data, "a".data, "b".data)]) = false
    ∧ manifestFromJson (mkManifestJson [("image".data, "a".data, "b".data)])
      = .ok { payloads := [⟨PayloadType.Image, "a", "b", none⟩] } :=
  ⟨manifest_unknown_type_parse_time.1 [("video".data, "a".data, "b".data)]
      ⟨("video".data, "a".data, "b".data), by decide, by decide⟩,
   manifest_unknown_type_parse_time.2.1 [("image".data, "a".data, "b".data)] (by decide)⟩

/-- An accepted line steps the table parser by one insert. -/
theorem lineParse_step (line : List Char) (fn : String) (c : Checksum)
    (h : lineParse line = some (fn, c)) (m : String → Option Checksum)
    (rest : List (List Char)) :
    parseChecksumLinesInto m (line :: rest) = parseChecksumLinesInto (insertCk m fn c) rest := by
  rcases hsp : splitWhitespace line with _ | ⟨fname, tks⟩
  · simp only [lineParse, hsp] at h
    cases h
  · rcases tks with _ | ⟨ck, restTok⟩
    · simp only [lineParse, hsp] at h
      cases h
    · cases hcf : Checksum.fromStr ck with
      | error e =>
        simp only [lineParse, hsp, hcf] at h
        cases h
      | ok c1 =>
        simp only [lineParse, hsp, hcf, Option.some.injEq, Prod.mk.injEq] at h
        obtain ⟨hfn, hc⟩ := h
        subst hfn
        subst hc
        simp only [parseChecksumLinesInto, hsp, hcf]

/-- A rejected line makes the table parser fail with the error of lineError,
after any run of accepted lines. -/
theorem parseLines_bad (line : List Char) (hbad : lineParse line = none)
    (ls2 : List (List Char)) :
    ∀ (ls1 : List (List Char)) (m : String → Option Checksum),
      (∀ l ∈ ls1, (lineParse l).isSome = true) →
      parseChecksumLinesInto m (ls1 ++ line :: ls2) = .error (lineError line) := by
  intro ls1
  induction ls1 with
  | nil =>
    intro m _
    rcases hsp : splitWhitespace line with _ | ⟨fname, tks⟩
    · simp only [List.nil_append, parseChecksumLinesInto, hsp, lineError]
    · rcases tks with _ | ⟨ck, restTok⟩
      · simp only [List.nil_append, parseChecksumLinesInto, hsp, lineError]
      · cases hcf : Checksum.fromStr ck with
        | ok c =>
          simp only [lineParse, hsp, hcf] at hbad
          cases hbad
        | error e =>
          have he : e = .ChecksumFormatError
              ("failed to parse hex checksum from: " ++ String.mk ck) := by
            rw [Checksum.fromStr] at hcf
            cases hfr : fromStrRadix16 (ck.map Char.toNat) with
            | none =>
              simp only [hfr, Except.error.injEq] at hcf
              rw [hcf]
            | some v =>
              simp only [hfr] at hcf
              cases hcf
          simp only [List.nil_append, parseChecksumLinesInto, hsp, hcf, lineError, he]
  | cons l1 rest1 ih =>
    intro m hall
    have h1 : (lineParse l1).isSome = true := hall l1 (by simp)
    obtain ⟨fc, hfc⟩ := Option.isSome_iff_exists.mp h1
    rw [List.cons_append, lineParse_step l1 fc.1 fc.2 (by rw [hfc]) m (rest1 ++ line :: ls2)]
    exact ih (insertCk m fc.1 fc.2) (fun l hl => hall l (by simp [hl]))

/-- A run of accepted lines builds exactly the last-write-wins table over
the starting map. -/
theorem parseLines_good (ls : List (List Char)) :
    ∀ m : String → Option Checksum, (∀ l ∈ ls, (lineParse l).isSome = true) →
      parseChecksumLinesInto m ls
        = .ok (fun k => match lastWins ls k with | some c => some c | none => m k) := by
  induction ls with
  | nil =>
    intro m _
    rfl
  | cons line rest ih =>
    intro m hall
    have h1 : (lineParse line).isSome = true := hall line (by simp)
    obtain ⟨fc, hfc⟩ := Option.isSome_iff_exists.mp h1
    rw [lineParse_step line fc.1 fc.2 (by rw [hfc]) m rest,
      ih (insertCk m fc.1 fc.2) (fun l hl => hall l (by simp [hl]))]
    congr 1
    funext k
    have hlw : lastWins (line :: rest) k
        = (match lastWins rest k with
           | some c' => some c'
           | none =>
             match lineParse line with
             | some fc1 => if k = fc1.1 then some fc1.2 else none
             | none => none) := rfl
    rw [hlw, hfc]
    cases lastWins rest k with
    | some c' => rfl
    | none =>
      rw [insertCk]
      by_cases hk : k = fc.1
      · simp [hk]
      · simp [hk]

/-- Counterexample for C7: the line f 0 junk has three whitespace tokens and
a 1-digit checksum, yet the parser accepts it, binding f to 0; neither the
exactly-two-token shape nor the 8-hex-digit shape is enforced. -/
theorem checksum_tokens_counterexample :
    parseSucceeds ("f 0 junk".data) = true
    ∧ parsedChecksumOf ("f 0 junk".data) "f" = some ⟨some 0, none⟩
    ∧ (splitWhitespace ("f 0 junk".data)).length = 3
    ∧ ("0".data).length ≠ 8 :=
  ⟨rfl, rfl, rfl, by decide⟩

/-- C7 amended: the input is split into lines; from each line the first two
whitespace tokens are taken as filename and hex u32 checksum, further tokens
being ignored; a line with fewer than two tokens (an empty line included)
fails with a format error citing the line, and an unparseable checksum
token fails with a format error citing that token; a successful parse
yields the map whose binding for each filename is the last line
mentioning it. -/
theorem parseChecksumFile_spec (buf : List Char) :
    (∀ ls1 line ls2, rustLines buf = ls1 ++ line :: ls2 →
        (∀ l ∈ ls1, (lineParse l).isSome = true) → lineParse line = none →
        parseChecksumFile buf = .error (lineError line))
    ∧ ((∀ l ∈ rustLines buf, (lineParse l).isSome = true) →
        parseChecksumFile buf = .ok ⟨fun k => lastWins (rustLines buf) k⟩) := by
  constructor
  · intro ls1 line ls2 hsplit hgood hbad
    rw [parseChecksumFile, hsplit, parseLines_bad line hbad ls2 ls1 (fun _ => none) hgood]
  · intro hgood
    rw [parseChecksumFile, parseLines_good (rustLines buf) (fun _ => none) hgood]
    show (Except.ok { cksums := fun k =>
        match lastWins (rustLines buf) k with
        | some c => some c
        | none => none } : Except ArchiveError ChecksumLookup)
      = Except.ok { cksums := fun k => lastWins (rustLines buf) k }
    congr 1
    congr 1
    funext k
    cases h : lastWins (rustLines buf) k with
    | some c => simp [h]
    | none => simp [h]

/-- Witness for C7: a well-formed first line followed by a one-token line
fails citing that line. -/
theorem parseChecksumFile_spec_witness :
    parseChecksumFile ("a 1\nbad\n".data)
      = .error (.ChecksumFormatError "failed to parse filename checksum from line: bad") :=
  (parseChecksumFile_spec ("a 1\nbad\n".data)).1 ["a 1".data] ("bad".data) [] (by decide)
    (by decide) (by decide)

end Skipper
